import Mathlib

/-!
Shallow embedding of `td::HazardPointers<T, MaxPointersN>` from
`src/tdutils/td/utils/HazardPointers.h`.

Modelling choices:
* A raw pointer `T *` is `Ptr := Option Addr` with `Addr := Nat`: `none` is the
  null pointer, `some a` a non-null address treated as an opaque comparable
  token (the code only ever compares addresses; it never dereferences them
  during a scan).
* A `unique_ptr<T>` entry of the retirement vector `to_delete` is likewise a
  `Ptr` (its owned raw pointer); destroying an entry is observable as membership
  in the list of destroyed pointers returned next to the new state.
* `std::atomic` cells become plain `Ptr` fields, and concurrency is modelled
  where a claim needs it by letting each atomic load observe the cell value at
  the instant of that load (see `is_protected_at` below, where a cell timeline
  and per-cell check instants feed the sweep).  Memory orderings collapse under
  this sequentially consistent interleaving abstraction.
* The cache-line padding fields (`pad`, `pad2`, `TD_CONCURRENCY_PAD`) are
  omitted: they have no observable behaviour.
* The template parameter `MaxPointersN` is carried as a field `maxPointersN`.
-/

abbrev Addr := Nat

abbrev Ptr := Option Addr

/-- Per-thread state: `struct ThreadData` of the source, holding the fixed
hazard array `std::array<std::atomic<T *>, MaxPointersN> hazard` and the
retirement vector `std::vector<unique_ptr<T>> to_delete`. -/
structure ThreadData where
  hazard : List Ptr
  to_delete : List Ptr
deriving Repr, DecidableEq, Inhabited

/-- The registry: `template <class T, int MaxPointersN> class HazardPointers`,
with its field `std::vector<ThreadData> threads_`. -/
structure HazardPointers where
  maxPointersN : Nat
  threads_ : List ThreadData
deriving Repr, DecidableEq

/-- The constructor `HazardPointers(size_t threads_n) : threads_(threads_n)`:
`threads_n` default-constructed `ThreadData` (empty `to_delete` vector), then
`std::atomic_init(&ptr, nullptr)` on every hazard cell. -/
def HazardPointers.init (maxPointersN threads_n : Nat) : HazardPointers :=
  { maxPointersN := maxPointersN
    threads_ := List.replicate threads_n
      { hazard := List.replicate maxPointersN none, to_delete := [] } }

/-- Read hazard cell `threads_[tid].hazard[pos]` (defaulting to null when the
index is out of range; callers below guard the range where the code does). -/
def HazardPointers.getCell (st : HazardPointers) (tid pos : Nat) : Ptr :=
  ((st.threads_.getD tid ⟨[], []⟩).hazard).getD pos none

/-- Write hazard cell `threads_[tid].hazard[pos]` (an atomic `store`). -/
def HazardPointers.setCell (st : HazardPointers) (tid pos : Nat) (v : Ptr) :
    HazardPointers :=
  match st.threads_[tid]? with
  | none => st
  | some td =>
    { st with threads_ := st.threads_.set tid { td with hazard := td.hazard.set pos v } }

/-- `get_hazard_ptr` runs `CHECK(thread_id < threads_.size())` and then the
unchecked accesses `threads_[thread_id].hazard[pos]`.  The three outcomes are
kept distinct: `ok` names the cell the returned reference aliases;
`checkFailed` is the deliberate fatal abort of the `CHECK`; `outOfBounds` is
the unchecked out-of-range `std::array` subscript, which is undefined
behaviour, not a surfaced assertion. -/
inductive HazardPtrAccess where
  | ok (thread_id pos : Nat)
  | checkFailed
  | outOfBounds
deriving Repr, DecidableEq

/-- Modelled from the spec: the `CHECK` macro comes from `td/utils/common.h`,
which is part of this repository but not under `src/`; the spec describes it as
the fatal-assertion collaborator that "fails with an invariant violation when a
bounds precondition is violated", i.e. a hard abort.  A failed `CHECK` is
therefore embedded as the dedicated abort outcome (`HazardPtrAccess.checkFailed`
here, `none` for `retire` below), never as normal continuation. -/
def HazardPointers.get_hazard_ptr (st : HazardPointers) (thread_id pos : Nat) :
    HazardPtrAccess :=
  if thread_id < st.threads_.length then
    if pos < st.maxPointersN then .ok thread_id pos else .outOfBounds
  else .checkFailed

/-- `class Holder`: holds the reference member
`std::atomic<T *> &hazard_ptr_`, embedded as the index pair of the cell that
the reference aliases.  `get_holder(thread_id, pos)` builds
`Holder(get_hazard_ptr(thread_id, pos))`, so its fault behaviour on bad
indices is exactly `get_hazard_ptr`'s. -/
structure Holder where
  hazard_ptr_ : Nat × Nat
deriving Repr, DecidableEq

/-- `Holder::clear`: `hazard_ptr_.store(nullptr, std::memory_order_release)`. -/
def Holder.clear (h : Holder) (st : HazardPointers) : HazardPointers :=
  st.setCell h.hazard_ptr_.1 h.hazard_ptr_.2 none

/-- `Holder::~Holder()` calls `clear()`. -/
def Holder.destructor (h : Holder) (st : HazardPointers) : HazardPointers :=
  h.clear st

/-- `Holder(Holder &&other) = default;  // TODO` — the defaulted move
constructor of a class whose only data member is a reference copies the
reference binding, so after the move BOTH holders alias the same hazard cell.
Returns (the newly constructed holder, the moved-from holder). -/
def Holder.moveConstruct (other : Holder) : Holder × Holder :=
  (⟨other.hazard_ptr_⟩, other)

/-- `do_clear`: `hazard_ptr.store(nullptr, std::memory_order_release)`; this is
what the old-interface `clear(thread_id, pos)` does to the cell named by
`get_hazard_ptr(thread_id, pos)`. -/
def HazardPointers.do_clear (st : HazardPointers) (tid pos : Nat) : HazardPointers :=
  st.setCell tid pos none

/-- `is_protected(T *ptr)`: iterate every thread, iterate its hazard array,
return true as soon as some cell's load equals `ptr`. -/
def HazardPointers.is_protected (st : HazardPointers) (ptr : Ptr) : Bool :=
  st.threads_.any fun thread => thread.hazard.any fun hazard_ptr => hazard_ptr = ptr

/-- The reclamation loop inside `retire`: walk the `to_delete` vector; an entry
that is not protected is destroyed (`it->reset()`) and erased, a protected one
is kept (`++it`).  Returns (the entries kept, the entries destroyed), both in
their original order. -/
def HazardPointers.sweep (st : HazardPointers) : List Ptr → List Ptr × List Ptr
  | [] => ([], [])
  | it :: rest =>
    if ! st.is_protected it then
      let r := st.sweep rest
      (r.1, it :: r.2)
    else
      let r := st.sweep rest
      (it :: r.1, r.2)

/-- `retire(size_t thread_id, T *ptr = nullptr)`:
`CHECK(thread_id < threads_.size())` (abort = `none`), then if `ptr` is
non-null append `unique_ptr<T>(ptr)` to `threads_[thread_id].to_delete`, then
run the reclamation loop over that vector.  Returns the new registry state and
the list of destroyed pointers. -/
def HazardPointers.retire (st : HazardPointers) (thread_id : Nat) (ptr : Ptr := none) :
    Option (HazardPointers × List Ptr) :=
  if thread_id < st.threads_.length then
    let data := st.threads_.getD thread_id ⟨[], []⟩
    let l := if ptr.isSome then data.to_delete ++ [ptr] else data.to_delete
    let r := st.sweep l
    some ({ st with threads_ := st.threads_.set thread_id { data with to_delete := r.1 } },
      r.2)
  else none

/-- `to_delete_size_unsafe`: sum of the retirement-list lengths. -/
def HazardPointers.to_delete_size_unsafe (st : HazardPointers) : Nat :=
  st.threads_.foldl (fun res thread => res + thread.to_delete.length) 0

/-- `do_protect(hazard_ptr, to_protect)` under concurrency: successive atomic
loads of `to_protect` may observe different values, so the loads are given as a
stream `loads : Nat → Ptr` (`loads k` is what the k-th load returns, counting
from 0).  `fuel` bounds the number of loop tests (the code's loop need not
terminate if the source is rewritten forever; `none` means the fuel ran out
with the loop still running).  On termination the result is
(the value returned, the final content of `hazard_ptr`, the number of loads
performed), `hz` being the content of `hazard_ptr` on entry.

```
T *saved = nullptr;
T *to_save;
while ((to_save = to_protect.load()) != saved) {
  hazard_ptr.store(to_save);
  saved = to_save;
}
return saved;
```
-/
def do_protect_go (loads : Nat → Ptr) : Nat → Nat → Ptr → Ptr → Option (Ptr × Ptr × Nat)
  | 0, _, _, _ => none
  | fuel + 1, k, saved, hz =>
    let to_save := loads k
    if to_save = saved then some (saved, hz, k + 1)
    else do_protect_go loads fuel (k + 1) to_save to_save

def do_protect (fuel : Nat) (loads : Nat → Ptr) (hz : Ptr) : Option (Ptr × Ptr × Nat) :=
  do_protect_go loads fuel 0 none hz

/-- `is_protected` under concurrency: the same nested loop over every thread's
every cell, but each load observes the aliased cell's value at the instant of
that load, supplied by `load : thread index → cell index → observed value`. -/
def is_protected_at (threadsN maxN : Nat) (load : Nat → Nat → Ptr) (ptr : Ptr) : Bool :=
  (List.range threadsN).any fun tid => (List.range maxN).any fun pos => load tid pos = ptr

/-- The sweep's per-entry decision in `retire`: entry `a` is destroyed (freed)
exactly when `!is_protected(a)` over the values its cell checks observed. -/
def sweep_frees (threadsN maxN : Nat) (load : Nat → Nat → Ptr) (a : Addr) : Bool :=
  ! is_protected_at threadsN maxN load (some a)

/-- Invariant of the retirement lists: every `unique_ptr` entry is non-null. -/
def HazardPointers.wf_to_delete (st : HazardPointers) : Bool :=
  st.threads_.all fun td => td.to_delete.all fun e => e.isSome


/-! ### Helper lemmas -/

theorem list_set_of_getElem?_eq {α : Type} {l : List α} {i : Nat} {a : α}
    (h : l[i]? = some a) : l.set i a = l := by
  induction l generalizing i with
  | nil => simp at h
  | cons x xs ih =>
    cases i with
    | zero =>
      simp only [List.getElem?_cons_zero, Option.some.injEq] at h
      simp [h]
    | succ n =>
      simp only [List.getElem?_cons_succ] at h
      simp [ih h]

theorem sweep_eq_filter (st : HazardPointers) (l : List Ptr) :
    st.sweep l = (l.filter (fun e => st.is_protected e),
                  l.filter (fun e => ! st.is_protected e)) := by
  induction l with
  | nil => rfl
  | cons e rest ih =>
    cases hp : st.is_protected e <;>
      simp [HazardPointers.sweep, ih, hp, List.filter_cons]

theorem getCell_setCell_none (st : HazardPointers) (tid pos : Nat) :
    (st.setCell tid pos none).getCell tid pos = none := by
  cases hget : st.threads_[tid]? with
  | none =>
    simp only [HazardPointers.setCell, hget]
    simp [HazardPointers.getCell, List.getD_eq_getElem?_getD, hget]
  | some td =>
    have hlen : tid < st.threads_.length := by
      by_contra hc
      rw [List.getElem?_eq_none (Nat.le_of_not_lt hc)] at hget
      exact Option.noConfusion hget
    simp only [HazardPointers.setCell, hget, HazardPointers.getCell]
    simp only [List.getD_eq_getElem?_getD, List.getElem?_set_self hlen, Option.getD_some]
    rcases Nat.lt_or_ge pos td.hazard.length with hp | hp
    · simp [List.getElem?_set_self hp]
    · rw [List.set_eq_of_length_le hp, List.getElem?_eq_none hp]
      rfl

theorem setCell_setCell (st : HazardPointers) (tid pos : Nat) (u v : Ptr) :
    (st.setCell tid pos u).setCell tid pos v = st.setCell tid pos v := by
  cases hget : st.threads_[tid]? with
  | none => simp [HazardPointers.setCell, hget]
  | some td =>
    have hlen : tid < st.threads_.length := by
      by_contra hc
      rw [List.getElem?_eq_none (Nat.le_of_not_lt hc)] at hget
      exact Option.noConfusion hget
    simp only [HazardPointers.setCell, hget, List.getElem?_set_self hlen, List.set_set]

theorem setCell_none_of_getCell_none (st : HazardPointers) (tid pos : Nat)
    (h : st.getCell tid pos = none) : st.setCell tid pos none = st := by
  unfold HazardPointers.getCell at h
  cases hget : st.threads_[tid]? with
  | none => simp [HazardPointers.setCell, hget]
  | some td =>
    simp only [List.getD_eq_getElem?_getD, hget, Option.getD_some] at h
    have hset : td.hazard.set pos none = td.hazard := by
      rcases Nat.lt_or_ge pos td.hazard.length with hp | hp
      · apply list_set_of_getElem?_eq
        cases hx : td.hazard[pos]? with
        | none => exact absurd (List.getElem?_eq_none_iff.mp hx) (Nat.not_le_of_lt hp)
        | some c =>
          rw [hx] at h
          simp only [Option.getD_some] at h
          rw [h]
      · exact List.set_eq_of_length_le hp
    simp only [HazardPointers.setCell, hget, hset]
    have hself : st.threads_.set tid td = st.threads_ := list_set_of_getElem?_eq hget
    simp [hself]

/-- Loop invariant of `do_protect`'s while-loop: if the call
`do_protect_go loads fuel k saved hz` (about to perform load number `k`, with
`saved` the previously loaded value, `hz` the current cell content) terminates
with `some (v, hz2, n)`, then `n` counts all loads, the final load returned
`v`, a run of at least one iteration left the cell holding `v`, and an
immediate exit returned `saved` and left the cell untouched. -/
theorem do_protect_go_spec (loads : Nat → Ptr) :
    ∀ (fuel k : Nat) (saved hz v hz2 : Ptr) (n : Nat),
      do_protect_go loads fuel k saved hz = some (v, hz2, n) →
      k < n ∧ loads (n - 1) = v ∧
      (k + 2 ≤ n → loads (n - 2) = v ∧ hz2 = v) ∧
      (n = k + 1 → v = saved ∧ hz2 = hz) := by
  intro fuel
  induction fuel with
  | zero =>
    intro k saved hz v hz2 n h
    simp [do_protect_go] at h
  | succ fuel ih =>
    intro k saved hz v hz2 n h
    simp only [do_protect_go] at h
    by_cases hc : loads k = saved
    · rw [if_pos hc] at h
      obtain ⟨hv, hhz, hn⟩ : saved = v ∧ hz = hz2 ∧ k + 1 = n := by
        have := Option.some.inj h
        exact ⟨congrArg Prod.fst this, congrArg Prod.fst (congrArg Prod.snd this),
          congrArg Prod.snd (congrArg Prod.snd this)⟩
      subst hv
      subst hhz
      subst hn
      refine ⟨Nat.lt_succ_self k, ?_, ?_, fun _ => ⟨rfl, rfl⟩⟩
      · simpa using hc
      · intro h2
        omega
    · rw [if_neg hc] at h
      obtain ⟨h1, h2, h3, h4⟩ := ih (k + 1) (loads k) (loads k) v hz2 n h
      refine ⟨Nat.lt_of_succ_lt h1, h2, ?_, ?_⟩
      · intro hk2
        rcases Nat.lt_or_ge n (k + 3) with hlt | hge
        · have hn2 : n = k + 2 := by omega
          obtain ⟨hv, hhz⟩ := h4 (by omega)
          constructor
          · have hnk : n - 2 = k := by omega
            rw [hnk, ← hv]
          · rw [hhz, ← hv]
        · exact h3 (by omega)
      · intro hnk
        omega

/-- Claim C1: an object handed to `retire` is never destroyed by the sweep
while any hazard cell holds its address at the instant the sweep's
`is_protected` scan loads that cell; in particular, a reader whose `protect`
completed (its cell holding the address from instant `t0` on, with no
intervening `clear`) before the sweep's check of that cell is never exposed to
a free.  The sweep's concurrent cell loads are modelled by a per-cell timeline
`cellVal tid pos t` and per-cell check instants `checkT tid pos`; `sweep_frees`
is the per-entry freeing decision `!is_protected` of `retire`'s loop. -/
theorem c1_no_free_while_hazard_held
    (threadsN maxN : Nat) (cellVal : Nat → Nat → Nat → Ptr) (checkT : Nat → Nat → Nat)
    (a : Addr) (tid pos t0 : Nat)
    (htid : tid < threadsN) (hpos : pos < maxN) :
    (cellVal tid pos (checkT tid pos) = some a →
      sweep_frees threadsN maxN (fun i j => cellVal i j (checkT i j)) a = false) ∧
    ((∀ t, t0 ≤ t → cellVal tid pos t = some a) → t0 ≤ checkT tid pos →
      sweep_frees threadsN maxN (fun i j => cellVal i j (checkT i j)) a = false) := by
  have key : cellVal tid pos (checkT tid pos) = some a →
      sweep_frees threadsN maxN (fun i j => cellVal i j (checkT i j)) a = false := by
    intro hobs
    have hprot : is_protected_at threadsN maxN
        (fun i j => cellVal i j (checkT i j)) (some a) = true := by
      simp only [is_protected_at, List.any_eq_true, decide_eq_true_eq]
      exact ⟨tid, List.mem_range.mpr htid, pos, List.mem_range.mpr hpos, hobs⟩
    simp [sweep_frees, hprot]
  exact ⟨key, fun hhold hc => key (hhold _ hc)⟩

/-- Witness for C1 at a concrete timeline: one thread, one cell, the cell
holding address 7 at every instant, the check happening at instant 5. -/
theorem c1_witness :
    sweep_frees 1 1 (fun _ _ => some 7) 7 = false :=
  (c1_no_free_while_hazard_held 1 1 (fun _ _ _ => some 7) (fun _ _ => 5) 7 0 0 0
    (by decide) (by decide)).1 rfl

/-- Counterexample to claim C3: with one registered thread and MaxPointersN = 2,
the access `get_hazard_ptr(0, 5)` has an in-range thread id but an out-of-range
slot index; it does NOT hit the fatal `CHECK` abort — the `CHECK` guards only
`thread_id`, and the `std::array` subscript `hazard[pos]` is unchecked
(undefined behaviour), so the violation is not surfaced as a hard
abort/assertion. -/
theorem c3_counterexample :
    HazardPointers.get_hazard_ptr (HazardPointers.init 2 1) 0 5 =
        HazardPtrAccess.outOfBounds ∧
    HazardPtrAccess.outOfBounds ≠ HazardPtrAccess.checkFailed := by
  exact ⟨rfl, by decide⟩

/-- Claim C3 as amended: an out-of-range THREAD id is fatal and surfaced
immediately by `CHECK(thread_id < threads_.size())`, both on the
`get_hazard_ptr` path (used by `get_holder` and the old-interface
`protect`/`clear`) and in `retire`; an out-of-range SLOT index with an
in-range thread id is not checked at all — the array subscript is undefined
behaviour, not an assertion. -/
theorem c3_thread_id_fatal_slot_unchecked (st : HazardPointers) (tid pos : Nat)
    (ptr : Ptr) :
    (st.threads_.length ≤ tid →
      st.get_hazard_ptr tid pos = HazardPtrAccess.checkFailed ∧
      st.retire tid ptr = none) ∧
    (tid < st.threads_.length → st.maxPointersN ≤ pos →
      st.get_hazard_ptr tid pos = HazardPtrAccess.outOfBounds) := by
  constructor
  · intro h
    constructor
    · simp [HazardPointers.get_hazard_ptr, Nat.not_lt.mpr h]
    · simp [HazardPointers.retire, Nat.not_lt.mpr h]
  · intro h1 h2
    simp [HazardPointers.get_hazard_ptr, h1, Nat.not_lt.mpr h2]

/-- Witness for the amended C3: thread id 5 on a 1-thread registry hits the
fatal `CHECK` in both `get_hazard_ptr` and `retire`. -/
theorem c3_witness :
    HazardPointers.get_hazard_ptr (HazardPointers.init 2 1) 5 0 =
        HazardPtrAccess.checkFailed ∧
    HazardPointers.retire (HazardPointers.init 2 1) 5 (some 9) = none :=
  (c3_thread_id_fatal_slot_unchecked (HazardPointers.init 2 1) 5 0 (some 9)).1
    (by decide)

/-- Claim C5 is violated by the code: `Holder(Holder &&) = default` copies the
reference member, so the moved-from holder still aliases the SAME hazard cell,
and its destructor (which always calls `clear()`) nulls that cell.  Here the
cell `[0][0]` holds address 5; after move-constructing a new holder from the
old one and destroying the old (moved-from) one, the cell is null — the
moved-from scope is not inert, contradicting the documented
move-transfers-responsibility contract (the source marks the defaulted move
with a TODO). -/
theorem c5_moved_from_destructor_clears_cell :
    HazardPointers.getCell ((HazardPointers.init 1 1).setCell 0 0 (some 5)) 0 0 =
        some 5 ∧
    HazardPointers.getCell
      (Holder.destructor (Holder.moveConstruct ⟨(0, 0)⟩).2
        ((HazardPointers.init 1 1).setCell 0 0 (some 5))) 0 0 = none := by
  decide

/-- Claim C6: `clear` stores null into the scope's hazard cell; it is
idempotent (clearing twice equals clearing once, as registry states), and
clearing an already-null cell is a no-op on the whole registry state. -/
theorem c6_clear_null_idempotent (st : HazardPointers) (h : Holder) :
    (h.clear st).getCell h.hazard_ptr_.1 h.hazard_ptr_.2 = none ∧
    h.clear (h.clear st) = h.clear st ∧
    (st.getCell h.hazard_ptr_.1 h.hazard_ptr_.2 = none → h.clear st = st) := by
  refine ⟨getCell_setCell_none st _ _, setCell_setCell st _ _ none none,
    fun hnull => setCell_none_of_getCell_none st _ _ hnull⟩

/-- Witness for C6 on a concrete registry whose cell `[0][0]` holds address 3. -/
theorem c6_witness :
    (Holder.clear ⟨(0, 0)⟩ ((HazardPointers.init 1 1).setCell 0 0 (some 3))).getCell 0 0 =
        none ∧
    Holder.clear ⟨(0, 0)⟩ (Holder.clear ⟨(0, 0)⟩
        ((HazardPointers.init 1 1).setCell 0 0 (some 3))) =
      Holder.clear ⟨(0, 0)⟩ ((HazardPointers.init 1 1).setCell 0 0 (some 3)) ∧
    (((HazardPointers.init 1 1).setCell 0 0 (some 3)).getCell 0 0 = none →
      Holder.clear ⟨(0, 0)⟩ ((HazardPointers.init 1 1).setCell 0 0 (some 3)) =
        (HazardPointers.init 1 1).setCell 0 0 (some 3)) :=
  c6_clear_null_idempotent ((HazardPointers.init 1 1).setCell 0 0 (some 3)) ⟨(0, 0)⟩

/-- Claim C8: after construction with `threads_n` threads, the registry holds
exactly `threads_n` per-thread slot/retirement-list pairs; each thread's hazard
array is the MaxPointersN-sized all-null array, and each retirement list is
empty. -/
theorem c8_init_all_null_empty (maxN n tid : Nat) (htid : tid < n) :
    (HazardPointers.init maxN n).threads_.length = n ∧
    ((HazardPointers.init maxN n).threads_.getD tid ⟨[], []⟩).hazard =
      List.replicate maxN none ∧
    ((HazardPointers.init maxN n).threads_.getD tid ⟨[], []⟩).to_delete = [] := by
  refine ⟨by simp [HazardPointers.init], ?_, ?_⟩ <;>
    simp [HazardPointers.init, List.getD_eq_getElem?_getD, List.getElem?_replicate, htid]

/-- Witness for C8: a registry of 3 threads with MaxPointersN = 2, thread 1. -/
theorem c8_witness :
    (HazardPointers.init 2 3).threads_.length = 3 ∧
    ((HazardPointers.init 2 3).threads_.getD 1 ⟨[], []⟩).hazard =
      List.replicate 2 none ∧
    ((HazardPointers.init 2 3).threads_.getD 1 ⟨[], []⟩).to_delete = [] :=
  c8_init_all_null_empty 2 3 1 (by decide)

/-- Claim C2: whenever `do_protect`'s loop terminates having performed `n`
atomic loads of the source and returns `v`, (i) at least one load happened and
the final load returned `v`; (ii) if the loop iterated (`n ≥ 2`), the last two
consecutive loads both returned `v` and `v` is what was last published into
the hazard cell; (iii) if it exited after the very first load (`n = 1`), the
source was null, null is returned, and the cell was never written; and
(iv) conversely, when the source CURRENTLY holds null — its first load returns
null — the run necessarily stopped after that single load, returned null, and
never wrote the hazard cell: no further iteration happened. -/
theorem c2_protect_loop_returns_agreed (loads : Nat → Ptr) (fuel : Nat)
    (hz v hz2 : Ptr) (n : Nat)
    (hres : do_protect fuel loads hz = some (v, hz2, n)) :
    1 ≤ n ∧ loads (n - 1) = v ∧
    (2 ≤ n → loads (n - 2) = v ∧ hz2 = v) ∧
    (n = 1 → v = none ∧ hz2 = hz) ∧
    (loads 0 = none → n = 1 ∧ v = none ∧ hz2 = hz) := by
  obtain ⟨h1, h2, h3, h4⟩ := do_protect_go_spec loads fuel 0 none hz v hz2 n hres
  refine ⟨h1, h2, fun h => h3 (by omega), fun h => h4 (by omega), ?_⟩
  intro hnull
  cases fuel with
  | zero => simp [do_protect, do_protect_go] at hres
  | succ fuel =>
    simp only [do_protect, do_protect_go, hnull, if_pos] at hres
    obtain ⟨hv, hhz, hn⟩ :
        (none : Ptr) = v ∧ hz = hz2 ∧ 0 + 1 = n := by
      have heq := Option.some.inj hres
      exact ⟨congrArg Prod.fst heq, congrArg Prod.fst (congrArg Prod.snd heq),
        congrArg Prod.snd (congrArg Prod.snd heq)⟩
    exact ⟨hn.symm, hv.symm, hhz.symm⟩

/-- Witness for C2 at the claim's boundary case: a source whose current value
is null is read once, null is returned, and the cell (holding address 8) is
untouched. -/
theorem c2_witness :
    1 ≤ 1 ∧ (fun _ : Nat => (none : Ptr)) (1 - 1) = none ∧
    (2 ≤ 1 → (fun _ : Nat => (none : Ptr)) (1 - 2) = none ∧
      (some 8 : Ptr) = none) ∧
    (1 = 1 → (none : Ptr) = none ∧ (some 8 : Ptr) = some 8) ∧
    ((fun _ : Nat => (none : Ptr)) 0 = none →
      1 = 1 ∧ (none : Ptr) = none ∧ (some 8 : Ptr) = some 8) :=
  c2_protect_loop_returns_agreed (fun _ => none) 2 (some 8) none (some 8) 1 rfl

/-- Claim C9: when the source's first load returns null, `do_protect` exits
before its loop body ever runs: it returns null after exactly one load and the
hazard cell still holds whatever it held before — in particular a non-null
address published by an earlier `protect` through the same scope (with no
intervening `clear`) is still published. -/
theorem c9_null_source_no_publish (loads : Nat → Ptr) (fuel : Nat) (p : Addr)
    (hnull : loads 0 = none) :
    do_protect (fuel + 1) loads (some p) = some (none, some p, 1) := by
  simp [do_protect, do_protect_go, hnull]

/-- Witness for C9: a null source read by a scope whose cell holds address 3. -/
theorem c9_witness :
    (fun _ : Nat => (none : Ptr)) 0 = none ∧
    do_protect 1 (fun _ => (none : Ptr)) (some 3) = some (none, some 3, 1) :=
  ⟨rfl, c9_null_source_no_publish (fun _ => none) 0 3 rfl⟩

/-- Claim C4: for an in-range thread id, `retire(thread_id, ptr)` leaves the
thread's retirement list holding exactly those entries of (previous list, plus
`ptr` appended when non-null) that the sweep observed in some hazard cell, in
their original order, and destroys exactly the rest (also in order). -/
theorem c4_retire_keeps_exactly_protected (st : HazardPointers) (tid : Nat)
    (ptr : Ptr) (htid : tid < st.threads_.length) :
    (st.retire tid ptr).map
        (fun r => ((r.1.threads_.getD tid ⟨[], []⟩).to_delete, r.2)) =
      some (((st.threads_.getD tid ⟨[], []⟩).to_delete ++
            if ptr.isSome then [ptr] else []).filter (fun e => st.is_protected e),
        ((st.threads_.getD tid ⟨[], []⟩).to_delete ++
            if ptr.isSome then [ptr] else []).filter (fun e => ! st.is_protected e)) := by
  unfold HazardPointers.retire
  rw [if_pos htid]
  simp only [sweep_eq_filter, Option.map_some']
  cases hp : ptr.isSome <;>
    simp [hp, List.getD_eq_getElem?_getD, List.getElem?_set_self htid,
      List.filter_append]

/-- Witness for C4: one thread whose single hazard cell protects address 2 and
whose list holds addresses 2 and 3; retiring address 7 keeps exactly 2 and
destroys 3 and 7. -/
theorem c4_witness :
    ((HazardPointers.retire ⟨1, [⟨[some 2], [some 2, some 3]⟩]⟩ 0 (some 7)).map
        (fun r => ((r.1.threads_.getD 0 ⟨[], []⟩).to_delete, r.2))) =
      some ((([some 2, some 3] ++
            if (some 7 : Ptr).isSome then [some 7] else []).filter
          (fun e => HazardPointers.is_protected ⟨1, [⟨[some 2], [some 2, some 3]⟩]⟩ e)),
        (([some 2, some 3] ++
            if (some 7 : Ptr).isSome then [some 7] else []).filter
          (fun e => ! HazardPointers.is_protected ⟨1, [⟨[some 2], [some 2, some 3]⟩]⟩ e))) :=
  c4_retire_keeps_exactly_protected ⟨1, [⟨[some 2], [some 2, some 3]⟩]⟩ 0 (some 7)
    (by decide)

/-- Claim C7: for an in-range thread id, `retire(thread_id, nullptr)` appends
nothing: it only sweeps the existing entries — the thread's list becomes the
protected sublist of the old list, the destroyed entries are the unprotected
ones, and nothing else in the registry changes. -/
theorem c7_retire_null_only_sweeps (st : HazardPointers) (tid : Nat)
    (htid : tid < st.threads_.length) :
    st.retire tid none =
      some ({ st with threads_ := st.threads_.set tid (ThreadData.mk
          (st.threads_.getD tid ⟨[], []⟩).hazard
          ((st.threads_.getD tid ⟨[], []⟩).to_delete.filter
            (fun e => st.is_protected e))) },
        (st.threads_.getD tid ⟨[], []⟩).to_delete.filter
          (fun e => ! st.is_protected e)) := by
  unfold HazardPointers.retire
  rw [if_pos htid]
  simp [sweep_eq_filter]

/-- Witness for C7: a null retire on the one-thread registry above sweeps out
the unprotected address 3 and appends nothing. -/
theorem c7_witness :
    HazardPointers.retire ⟨1, [⟨[some 2], [some 2, some 3]⟩]⟩ 0 none =
      some (⟨1, [⟨[some 2], [some 2, some 3]⟩].set 0 (ThreadData.mk [some 2]
          (([some 2, some 3] : List Ptr).filter
            (fun e => HazardPointers.is_protected ⟨1, [⟨[some 2], [some 2, some 3]⟩]⟩ e)))⟩,
        ([some 2, some 3] : List Ptr).filter
          (fun e => ! HazardPointers.is_protected ⟨1, [⟨[some 2], [some 2, some 3]⟩]⟩ e)) :=
  c7_retire_null_only_sweeps ⟨1, [⟨[some 2], [some 2, some 3]⟩]⟩ 0 (by decide)

/-- Claim C10: every retirement-list entry is a non-null pointer, and the
operations preserve this: `retire` (null or non-null argument, since it only
appends its non-null argument and otherwise filters), `clear`, and the hazard
cell stores performed by `protect` (which never touch any retirement list).
`to_delete_size_unsafe` is a pure function and changes no state.  Consequently
the sweep never hands a null pointer to `is_protected` (a null argument would
be reported protected by any empty cell). -/
theorem c10_to_delete_nonnull_preserved (st st2 : HazardPointers) (tid pos : Nat)
    (ptr v : Ptr) (destroyed : List Ptr)
    (hwf : st.wf_to_delete = true)
    (hret : st.retire tid ptr = some (st2, destroyed)) :
    st2.wf_to_delete = true ∧
    (st.do_clear tid pos).wf_to_delete = true ∧
    (st.setCell tid pos v).wf_to_delete = true := by
  simp only [HazardPointers.wf_to_delete, List.all_eq_true] at hwf
  have hset : ∀ (w : Ptr), (st.setCell tid pos w).wf_to_delete = true := by
    intro w
    cases hget : st.threads_[tid]? with
    | none =>
      simp only [HazardPointers.setCell, hget]
      simp only [HazardPointers.wf_to_delete, List.all_eq_true]
      exact hwf
    | some td =>
      have htd : td ∈ st.threads_ := List.getElem?_mem hget
      simp only [HazardPointers.setCell, hget]
      simp only [HazardPointers.wf_to_delete, List.all_eq_true]
      intro td2 htd2
      rcases List.mem_or_eq_of_mem_set htd2 with hmem | heq
      · exact hwf td2 hmem
      · subst heq
        exact hwf td htd
  refine ⟨?_, hset none, hset v⟩
  unfold HazardPointers.retire at hret
  by_cases htid : tid < st.threads_.length
  · rw [if_pos htid] at hret
    simp only [sweep_eq_filter] at hret
    have hdata : st.threads_.getD tid ⟨[], []⟩ ∈ st.threads_ := by
      rw [List.getD_eq_getElem?_getD, List.getElem?_eq_getElem htid]
      exact List.getElem_mem htid
    have hst2 : st2 = { st with threads_ := st.threads_.set tid (ThreadData.mk
        (st.threads_.getD tid ⟨[], []⟩).hazard
        ((if ptr.isSome
            then (st.threads_.getD tid ⟨[], []⟩).to_delete ++ [ptr]
            else (st.threads_.getD tid ⟨[], []⟩).to_delete).filter
          (fun e => st.is_protected e))) } :=
      (congrArg Prod.fst (Option.some.inj hret)).symm
    rw [hst2]
    simp only [HazardPointers.wf_to_delete, List.all_eq_true]
    intro td2 htd2
    rcases List.mem_or_eq_of_mem_set htd2 with hmem | heq
    · exact hwf td2 hmem
    · subst heq
      intro e he
      have he2 := (List.mem_filter.mp he).1
      cases hp : ptr.isSome with
      | false =>
        rw [hp] at he2
        simp only [if_neg Bool.false_ne_true] at he2
        exact hwf _ hdata e he2
      | true =>
        rw [hp, if_pos rfl] at he2
        rcases List.mem_append.mp he2 with hold | hnew
        · exact hwf _ hdata e hold
        · have : e = ptr := List.mem_singleton.mp hnew
          rw [this]
          exact hp
  · rw [if_neg htid] at hret
    exact absurd hret (by simp)

/-- Witness for C10: the registry above keeps only non-null entries through a
non-null retire, a clear, and a publish. -/
theorem c10_witness :
    HazardPointers.wf_to_delete ⟨1, [⟨[some 2], [some 2]⟩]⟩ = true ∧
    (HazardPointers.do_clear ⟨1, [⟨[some 2], [some 2, some 3]⟩]⟩ 0 0).wf_to_delete =
        true ∧
    (HazardPointers.setCell ⟨1, [⟨[some 2], [some 2, some 3]⟩]⟩ 0 0
        (some 9)).wf_to_delete = true :=
  c10_to_delete_nonnull_preserved ⟨1, [⟨[some 2], [some 2, some 3]⟩]⟩
    ⟨1, [⟨[some 2], [some 2]⟩]⟩ 0 0 (some 7) (some 9) [some 3, some 7]
    (by decide) (by decide)
